import Mathlib

/-!
# Verification of the expense-CSV ingestion pipeline

A shallow embedding in Lean 4 of the core of the `expenses` Python package
(`runner.py`, `normalization.py`, `categorizer.py`, `categories.py`).

Modelling conventions:
* pandas cells are `Option String` (`none` = NaN / missing);
* floating-point currency arithmetic is modelled exactly by scaled decimals
  (`Dec`, an integer mantissa with a power-of-ten scale); all the numeric
  work of the pipeline is on small human-scale currency values where
  Python's binary floats behave like exact decimals, and the pipeline never
  adds two amounts — it only negates, compares with zero, and zeroes them;
* Python's Unicode case handling and the regex `\s` class are modelled on
  the ASCII range, which covers every string the pipeline manipulates;
* `re.search` on an alternation pattern is modelled by its documented
  semantics: the match starting at the leftmost possible position wins,
  and at a given position the alternatives are tried in pattern order.
-/

namespace Expenses

/-- ASCII whitespace characters, modelling Python's `str.strip` / regex `\s`. -/
def isWS (c : Char) : Bool :=
  c = ' ' || c = '\t' || c = '\n' || c = '\r' || c = '\x0b' || c = '\x0c'

/-- ASCII lower-casing, modelling `str.lower` on the strings the pipeline sees. -/
def asciiLower (c : Char) : Char :=
  if 65 ≤ c.toNat ∧ c.toNat ≤ 90 then Char.ofNat (c.toNat + 32) else c

/-- ASCII upper-casing, modelling `str.upper` / `re.IGNORECASE` folding. -/
def asciiUpper (c : Char) : Char :=
  if 97 ≤ c.toNat ∧ c.toNat ≤ 122 then Char.ofNat (c.toNat - 32) else c

/-- Strip leading and trailing whitespace from a character list (`str.strip`). -/
def trimChars (l : List Char) : List Char :=
  ((l.dropWhile isWS).reverse.dropWhile isWS).reverse

/-- Strip a string (`str.strip`). -/
def trimStr (s : String) : String := ⟨trimChars s.toList⟩

/--
An exact scaled decimal: the value `num / 10 ^ scale`.  This represents the
finite-decimal floats the pipeline produces from currency strings, without
losing exactness.
-/
structure Dec where
  num : ℤ
  scale : ℕ
deriving DecidableEq, Repr

/-- The rational value of a scaled decimal. -/
def Dec.toRat (d : Dec) : ℚ := (d.num : ℚ) / 10 ^ d.scale

/-- Negation of a scaled decimal. -/
def Dec.neg (d : Dec) : Dec := ⟨-d.num, d.scale⟩

/-- The literal `0` the pipeline writes when zeroing an amount out. -/
def Dec.zero : Dec := ⟨0, 0⟩

/-- Strict-negativity test (`x < 0` on the underlying float). -/
def Dec.isNeg (d : Dec) : Bool := d.num < 0

/-- Strict-positivity test (`x > 0` on the underlying float). -/
def Dec.isPos (d : Dec) : Bool := 0 < d.num

/-- One digit of a decimal numeral, as in `pd.to_numeric`. -/
def isDigitCh (c : Char) : Bool := 48 ≤ c.toNat && c.toNat ≤ 57

/-- Value of a digit string (most significant first). -/
def digitsVal (l : List Char) : ℕ :=
  l.foldl (fun a c => 10 * a + (c.toNat - 48)) 0

/--
Parse a plain decimal literal the way `pd.to_numeric(..., errors="coerce")`
accepts one: optional sign, an integer part and/or a fractional part
separated by a dot, no interior whitespace.  Unparseable input gives `none`
(pandas' NaN).  Scientific notation is outside the fragment the pipeline
ever receives and is not modelled.
-/
def parseDecimal (l : List Char) : Option Dec :=
  let (sgn, body) :=
    match l with
    | '-' :: rest => (true, rest)
    | '+' :: rest => (false, rest)
    | rest => (false, rest)
  let ip := body.takeWhile isDigitCh
  let rest := body.dropWhile isDigitCh
  let val? : Option Dec :=
    match rest with
    | [] => if ip.isEmpty then none else some ⟨digitsVal ip, 0⟩
    | '.' :: fp =>
        if fp.all isDigitCh ∧ ¬(ip.isEmpty ∧ fp.isEmpty) then
          some ⟨digitsVal ip * 10 ^ fp.length + digitsVal fp, fp.length⟩
        else none
    | _ => none
  val?.map (fun d => if sgn then d.neg else d)

/--
`coerce_money` from `normalization.py`: strip outer whitespace, delete every
`$`, delete every `,`, rewrite a fully parenthesised value `(x)` to `-x`
(accounting notation), then parse as a number; anything unparseable becomes
missing (`none`).
-/
def coerce_money (s : String) : Option Dec :=
  let t := trimChars s.toList
  let t := t.filter (fun c => c ≠ '$')
  let t := t.filter (fun c => c ≠ ',')
  let t :=
    match t with
    | '(' :: rest =>
        if rest ≠ [] ∧ rest.getLast? = some ')' then '-' :: rest.dropLast else t
    | _ => t
  parseDecimal t

/-! ## Amount Resolver (`runner.py`, `build_signed_amount_per_source`) -/

/--
One combined-table row as the Amount Resolver sees it: the provenance
metadata assigned by `load_transactions` and the raw cells of the debit,
credit and amount columns (after `pd.concat`, every row carries every
column, missing cells being NaN = `none`).
-/
structure Txn where
  source_dir : String
  source_file : String
  debit : Option String := none
  credit : Option String := none
  amount : Option String := none
deriving DecidableEq, Repr

/--
`coerce_money(group[col])` on a raw cell: NaN cells stringify to `"nan"`,
which `pd.to_numeric(..., errors="coerce")` turns back into NaN.
-/
def coerceCell (c : Option String) : Option Dec :=
  c.bind (fun s => coerce_money s)

/--
`coerce_money(group[debit_col].fillna(0))` on a raw cell: NaN cells are
first replaced by the number `0`, which coerces to `0`.
-/
def debitValue (c : Option String) : Option Dec :=
  match c with
  | none => some Dec.zero
  | some s => coerce_money s

/-- `group[col].notna().any()`: does any row of the group have a value? -/
def hasNonNull (g : List Txn) (f : Txn → Option String) : Bool :=
  g.any (fun r => (f r).isSome)

/-- `(amt < 0).sum()` over a group (NaN compares false). -/
def negCount (g : List Txn) : ℕ :=
  (g.filter (fun r => match coerceCell r.amount with
    | some d => d.isNeg
    | none => false)).length

/-- `(amt > 0).sum()` over a group (NaN compares false). -/
def posCount (g : List Txn) : ℕ :=
  (g.filter (fun r => match coerceCell r.amount with
    | some d => d.isPos
    | none => false)).length

/--
The sign-convention test `neg_cnt >= max(1, int(0.2 * max(1, pos_cnt)))`
from `build_signed_amount_per_source`.  `int(0.2 * n)` on the small counts
involved equals `⌊n / 5⌋`, written here with natural division.
-/
def decideNegConvention (neg pos : ℕ) : Bool :=
  max 1 (max 1 pos / 5) ≤ neg

/-- `amt.where(amt < 0, 0)` on one cell: keep negatives, zero out the rest. -/
def keepNegatives (v : Option Dec) : Dec :=
  match v with
  | some d => if d.isNeg then d else Dec.zero
  | none => Dec.zero

/-- `-amt.where(amt > 0, 0)` on one cell: negate positives, zero out the rest. -/
def flipPositives (v : Option Dec) : Dec :=
  match v with
  | some d => if d.isPos then d.neg else Dec.zero
  | none => Dec.zero

/--
The per-group decision policy of `build_signed_amount_per_source`, applied
to row `r` of group `g`.  The three flags say whether a debit / credit /
amount column was detected in the combined table (`debit_col` etc. being
non-`None`; after `pd.concat` the `in group.columns` test is always true).
-/
def signedForGroup (g : List Txn) (dFlag cFlag aFlag : Bool) (r : Txn) : Option Dec :=
  if dFlag && hasNonNull g (fun x => x.debit) then
    (debitValue r.debit).map Dec.neg
  else if aFlag && hasNonNull g (fun x => x.amount) then
    if decideNegConvention (negCount g) (posCount g) then
      some (keepNegatives (coerceCell r.amount))
    else
      some (flipPositives (coerceCell r.amount))
  else if cFlag && hasNonNull g (fun x => x.credit) then
    some Dec.zero
  else
    none

/-- `df_all.groupby("__source_file")`: the group a row with basename `src`
belongs to.  Note the key is the basename alone, not the (dir, file) pair. -/
def groupRows (rows : List Txn) (src : String) : List Txn :=
  rows.filter (fun r => r.source_file == src)

/-- The signed amount `build_signed_amount_per_source` assigns to row `r`
of the combined table `rows` (the group-wise results are written back by
original row index, so the output is positional). -/
def rowSigned (rows : List Txn) (dFlag cFlag aFlag : Bool) (r : Txn) : Option Dec :=
  signedForGroup (groupRows rows r.source_file) dFlag cFlag aFlag r

/-- `build_signed_amount_per_source` itself: one signed amount per row,
in the original row order. -/
def build_signed_amount_per_source (rows : List Txn) (dFlag cFlag aFlag : Bool) :
    List (Option Dec) :=
  rows.map (rowSigned rows dFlag cFlag aFlag)

/--
Modelled from the spec: the Amount Resolver as the spec describes it, with
grouping key the full provenance pair (directory, filename) — "produce one
signed numeric series, computed independently for each distinct source file
(grouping key = provenance)" where "Provenance" is "the (directory,
filename) pair".  Used to compare the code against the spec's claim C1.
-/
def buildSignedPerProvenanceSpec (rows : List Txn) (dFlag cFlag aFlag : Bool) :
    List (Option Dec) :=
  rows.map (fun r =>
    signedForGroup
      (rows.filter (fun x => x.source_file == r.source_file && x.source_dir == r.source_dir))
      dFlag cFlag aFlag r)

/--
Modelled from the spec: the sign-convention test as claim C4 words it —
"the count of negative values is at least 20% of the count of positive
values, with a minimum threshold of 1", i.e. `neg ≥ max(1, pos/5)` with the
fraction kept exact (stated over naturals by clearing the denominator 5).
-/
def specNegConvention (neg pos : ℕ) : Bool :=
  1 ≤ neg && pos ≤ 5 * neg

/--
Modelled from the spec: `build_signed_amount_per_source` with the exact
(unfloored) 20% threshold of claim C4 in place of the code's floored one.
-/
def buildSignedSpecThreshold (rows : List Txn) (dFlag cFlag aFlag : Bool) :
    List (Option Dec) :=
  rows.map (fun r =>
    let g := groupRows rows r.source_file
    if dFlag && hasNonNull g (fun x => x.debit) then
      (debitValue r.debit).map Dec.neg
    else if aFlag && hasNonNull g (fun x => x.amount) then
      if specNegConvention (negCount g) (posCount g) then
        some (keepNegatives (coerceCell r.amount))
      else
        some (flipPositives (coerceCell r.amount))
    else if cFlag && hasNonNull g (fun x => x.credit) then
      some Dec.zero
    else
      none)

/--
Step 6 of `run_pipeline`: pair each row with its signed amount and keep the
rows whose signed amount is strictly negative
(`df = df[df["_signed_amount"] < 0]`; NaN compares false and is dropped).
-/
def filterExpenses (rows : List Txn) (dFlag cFlag aFlag : Bool) :
    List (Txn × Option Dec) :=
  (rows.zip (build_signed_amount_per_source rows dFlag cFlag aFlag)).filter
    (fun p => match p.2 with
      | some d => d.isNeg
      | none => false)

/-! ## Schema Normalizer (`normalization.py`) -/

/--
Auxiliary for header normalization: `re.sub(r"\s+", "_", ...)`, collapsing
every maximal whitespace run to a single underscore.  The flag records
whether the previous character belonged to a whitespace run.
-/
def collapseWSAux : Bool → List Char → List Char
  | _, [] => []
  | inRun, c :: cs =>
      if isWS c then
        if inRun then collapseWSAux true cs else '_' :: collapseWSAux true cs
      else c :: collapseWSAux false cs

/-- Collapse every maximal whitespace run to one underscore. -/
def collapseWS (l : List Char) : List Char := collapseWSAux false l

/-- `normalize_headers` on one column name:
`re.sub(r"\s+", "_", col.strip().lower())`. -/
def normHeader (s : String) : String :=
  ⟨collapseWS ((trimChars s.toList).map asciiLower)⟩

/-- A date as the pipeline's `%Y-%m-%d` output represents one. -/
structure Date where
  year : ℕ
  month : ℕ
  day : ℕ
deriving DecidableEq, Repr

/-- The decimal digit character for `d < 10`. -/
def digitChar (d : ℕ) : Char := Char.ofNat (48 + d)

/-- `strftime("%Y-%m-%d")` on a parsed date. -/
def formatDateChars (d : Date) : List Char :=
  [digitChar (d.year / 1000 % 10), digitChar (d.year / 100 % 10),
   digitChar (d.year / 10 % 10), digitChar (d.year % 10), '-',
   digitChar (d.month / 10 % 10), digitChar (d.month % 10), '-',
   digitChar (d.day / 10 % 10), digitChar (d.day % 10)]

/-- Read one digit character. -/
def charToDigit (c : Char) : Option ℕ :=
  if 48 ≤ c.toNat ∧ c.toNat ≤ 57 then some (c.toNat - 48) else none

/-- Read four digit characters as a number. -/
def read4 (a b c d : Char) : Option ℕ := do
  let va ← charToDigit a
  let vb ← charToDigit b
  let vc ← charToDigit c
  let vd ← charToDigit d
  pure (va * 1000 + vb * 100 + vc * 10 + vd)

/-- Read two digit characters as a number. -/
def read2 (a b : Char) : Option ℕ := do
  let va ← charToDigit a
  let vb ← charToDigit b
  pure (va * 10 + vb)

/-- Gregorian leap-year rule, as `pd.to_datetime`'s calendar uses it. -/
def isLeapYear (y : ℕ) : Bool :=
  (y % 4 = 0 && y % 100 ≠ 0) || y % 400 = 0

/-- Number of days in a month of a given year. -/
def daysInMonth (y m : ℕ) : ℕ :=
  if m = 2 then (if isLeapYear y then 29 else 28)
  else if m = 4 || m = 6 || m = 9 || m = 11 then 30
  else 31

/--
The validation `pd.to_datetime` applies before accepting a date: the month
must exist, the day must exist in that month of that year (leap years
included, so `2023-02-31` is rejected and coerced to NaT), and the
resulting midnight timestamp must lie within the `pd.Timestamp` range —
`Timestamp.min` is 1677-09-21 00:12:43.145224193 and `Timestamp.max` is
2262-04-11 23:47:16.854775807, so a date-only (midnight) value is
representable exactly when it falls between 1677-09-22 and 2262-04-11
inclusive; out-of-bounds dates also coerce to NaT.
-/
def validDate (d : Date) : Bool :=
  1 ≤ d.month && d.month ≤ 12 && 1 ≤ d.day && d.day ≤ daysInMonth d.year d.month &&
    (let v := d.year * 10000 + d.month * 100 + d.day
     16770922 ≤ v && v ≤ 22620411)

/--
Permissive date parsing, modelling `pd.to_datetime(..., errors="coerce")`
on the two ten-character layouts the pipeline's inputs use: ISO
`YYYY-MM-DD` and US `MM/DD/YYYY`.  Differently shaped values, calendar-
invalid dates (such as `2023-02-31`) and dates outside the `pd.Timestamp`
range give `none` (NaT).
-/
def parseDateChars (l : List Char) : Option Date :=
  match l with
  | [c0, c1, c2, c3, c4, c5, c6, c7, c8, c9] =>
      if c4 = '-' ∧ c7 = '-' then do
        let y ← read4 c0 c1 c2 c3
        let mo ← read2 c5 c6
        let dy ← read2 c8 c9
        let dt : Date := ⟨y, mo, dy⟩
        if validDate dt then some dt else none
      else if c2 = '/' ∧ c5 = '/' then do
        let mo ← read2 c0 c1
        let dy ← read2 c3 c4
        let y ← read4 c6 c7 c8 c9
        let dt : Date := ⟨y, mo, dy⟩
        if validDate dt then some dt else none
      else none
  | _ => none

/--
A table cell as the date-normalization step manipulates it: either a raw
string or a `Timestamp` produced by `pd.to_datetime`.
-/
inductive Cell where
  | str (s : String)
  | date (d : Date)
deriving DecidableEq, Repr

/-- Parse a cell the way `pd.to_datetime` sees it: timestamps pass through,
strings are parsed. -/
def cellParse (c : Cell) : Option Date :=
  match c with
  | .str s => parseDateChars s.toList
  | .date d => some d

/--
One column of `normalize_date_columns`: first
`parsed.where(parsed.notna(), out[col])` (parseable cells become
timestamps, the rest keep their original value), then — only if the second
`pd.to_datetime(..., errors="ignore")` pass succeeds on every cell — the
column is rewritten as `%Y-%m-%d` strings; otherwise the `.dt.strftime`
access raises, the exception is swallowed, and the mixed column from the
first assignment remains.
-/
def normDateCol (cells : List Cell) : List Cell :=
  let step1 := cells.map (fun c =>
    match cellParse c with
    | some d => Cell.date d
    | none => c)
  if step1.all (fun c => (cellParse c).isSome) then
    step1.map (fun c =>
      match cellParse c with
      | some d => Cell.str ⟨formatDateChars d⟩
      | none => c)
  else
    step1

/--
A tabular structure in column-major form: a list of (column name, cells)
pairs.  This is the shape both Schema Normalizer transformations act on.
-/
abbrev NTable := List (String × List Cell)

/-- `normalize_headers` on a table. -/
def normalize_headers (t : NTable) : NTable :=
  t.map (fun col => (normHeader col.1, col.2))

/-- `normalize_date_columns`: for each candidate name present, rewrite that
column with `normDateCol`. -/
def normalize_date_columns (t : NTable) (candidates : List String) : NTable :=
  candidates.foldl
    (fun acc c =>
      acc.map (fun col => if col.1 = c then (col.1, normDateCol col.2) else col))
    t

/--
Decidable "this cell is already a normalized `YYYY-MM-DD` string": it is a
string that date parsing accepts and re-formatting reproduces verbatim.
-/
def isNormalizedDateCell (c : Cell) : Bool :=
  match c with
  | .str s =>
      match parseDateChars s.toList with
      | some d => formatDateChars d = s.toList
      | none => false
  | .date _ => false

/-- Every cell of every candidate-named column is already `YYYY-MM-DD`. -/
def datesAlreadyNormalized (t : NTable) (candidates : List String) : Bool :=
  t.all (fun col =>
    !(candidates.contains col.1) || col.2.all isNormalizedDateCell)

/-! ## Category rules (`categories.py`) -/

/--
`CATEGORY_RULES`: the ordered category → keyword-list mapping (Python dicts
preserve insertion order, which is the scan order of the categorizer).
-/
def CATEGORY_RULES : List (String × List String) := [
  ("Car Care", ["DON MILLER", "MERMAID CAR WASH", "CAR WASH"]),
  ("Coffee", ["STARBUCKS", "DUNKIN", "PEETS", "COFFEE", "BARRIQUES", "KAFE"]),
  ("Cash & ATM", ["WITHDRAWAL", "ATM"]),
  ("Dining", ["MCDONALD", "CHIPOTLE", "SUBWAY", "GRUBHUB", "UBER EATS",
              "DOORDASH", "HMONG", "FOODS"]),
  ("Entertainment", ["NETFLIX", "HULU", "SPOTIFY", "DISNEY", "YOUTUBE", "PRIME"]),
  ("Gas/Automotive", ["ESSO", "SPEEDWAY", "KWIK", "SHELL", "CHEVRON", "BP",
                      "MOBIL", "TEXACO", "SUNOCO", "CITGO", "OIL CHANGE",
                      "CAR WASH", "REPAIR", "MAINTENANCE", "TIRE", "AUTO PARTS",
                      "JIFFY LUBE", "VALVOLINE"]),
  ("Groceries", ["SAFEWAY", "KROGER", "WHOLE FOODS", "TRADER JOE", "GROCERY",
                 "WOODMAN", "METRO", "SAMSCLUB", "SAMS CLUB"]),
  ("Humanitarian", ["GOFUNDME", "DOCTORS W/O BORDER", "ACLU",
                    "DOCTORSWITHOUTBORDERS"]),
  ("Lodging", ["LODGING", "HOTEL", "RESORT"]),
  ("Mobile Pay", ["VENMO", "PAYPAL", "eBAY", "ZELLE"]),
  ("Other_Travel", ["OTHER TRAVEL", "TRAVEL MISC"]),
  ("Recreation", ["SMOKE", "MARIJUANA"]),
  ("Rent", ["SHILTS"]),
  ("Shopping", ["AMAZON", "TARGET", "WALMART", "BEST BUY"]),
  ("Thrifting", ["St. Vincent De Paul", "SVDP", "GOODWILL", "SUPERTHRIFT"]),
  ("Transit", ["UBER", "LYFT", "METRO", "TRANSIT", "PARKING", "TOLLS",
               "PRESTO", "TOLLWAY", "PAYGO", "BADGER COACHES"]),
  ("Airfare", ["AIRLINE", "DELTA", "UNITED", "AA ", "AMERICAN AIRLINES",
               "SOUTHWEST", "TRAIN", "AMTRAK", "BUS", "AMERICAN AIR"])]

/-! ## Canonicalizer (`CATEGORY_CANON` remap) -/

/-- One token of a canonical-remap regex: a literal (stored lower-case, the
patterns carry `(?i)`) or `[_\s]*` (any run of underscores / whitespace). -/
inductive CanonTok where
  | lit (s : String)
  | gap

/-- Match a token list against the whole remaining character list. -/
def canonTokMatch : List CanonTok → List Char → Bool
  | [], [] => true
  | [], _ :: _ => false
  | .lit s :: rest, cs =>
      (cs.take s.toList.length == s.toList) &&
        canonTokMatch rest (cs.drop s.toList.length)
  | .gap :: rest, cs =>
      canonTokMatch rest (cs.dropWhile (fun c => c = '_' || isWS c))

/--
Match one `CATEGORY_CANON` pattern `(?i)^\s*...\s*$` against a value:
anchored on the whole string, case-insensitive, with the `\s*` borders
handled by trimming.  (Each pattern's interior `[_\s]*` gaps are followed
by non-gap characters, so greedy gap consumption is exact.)
-/
def canonPatMatches (toks : List CanonTok) (s : String) : Bool :=
  canonTokMatch toks ((trimChars s.toList).map asciiLower)

/-- `CATEGORY_CANON`: the ordered regex → replacement mapping. -/
def CATEGORY_CANON : List (List CanonTok × String) := [
  ([.lit "lodging"], "Travel"),
  ([.lit "airfare"], "Travel"),
  ([.lit "other", .gap, .lit "travel"], "Travel"),
  ([.lit "gas", .gap, .lit "/", .gap, .lit "automotive"], "Travel"),
  ([.lit "coffee"], "Household"),
  ([.lit "dining", .gap, .lit "out"], "Household"),
  ([.lit "dining"], "Household"),
  ([.lit "groceries"], "Household"),
  ([.lit "food & dining"], "Household"),
  ([.lit "shopping"], "Household"),
  ([.lit "pharmacy"], "Household"),
  ([.lit "merchandise"], "Household")]

/--
`Series.replace(CATEGORY_CANON, regex=True)` on one value: each pattern is
applied in mapping order (with this rule set no replacement value matches a
later pattern, so sequential application and first-match-wins coincide).
-/
def applyCanon (s : String) : String :=
  CATEGORY_CANON.foldl (fun acc pr => if canonPatMatches pr.1 acc then pr.2 else acc) s

/-! ## Categorizer (`categorizer.py`) -/

/-- Upper-case a description the way `str(text).upper()` does. -/
def upChars (l : List Char) : List Char := l.map asciiUpper

/--
Does keyword `kw` match (under `re.IGNORECASE`) the span of `text` starting
at position `p`?  `text` is the already upper-cased description.
-/
def matchesAt (text : List Char) (p : ℕ) (kw : String) : Bool :=
  (text.drop p).take kw.toList.length == kw.toList.map asciiUpper

/-- The first alternative (in pattern order) matching at position `p` —
Python's regex alternation semantics at a fixed position. -/
def firstMatchAt (alts : List String) (text : List Char) (p : ℕ) : Option String :=
  alts.find? (fun k => matchesAt text p k)

/--
`compiled_pattern.search`: try positions left to right; at the first
position where some alternative matches, return that position and the
matched span (`match.group(0)`).  The fuel argument counts the positions
still to try.
-/
def searchAltFrom (alts : List String) (text : List Char) : ℕ → ℕ → Option (ℕ × String)
  | 0, _ => none
  | fuel + 1, p =>
      match firstMatchAt alts text p with
      | some k => some (p, ⟨(text.drop p).take k.toList.length⟩)
      | none => searchAltFrom alts text fuel (p + 1)

/-- `re.search` over the whole text (positions `0` … `text.length`). -/
def searchAlt (alts : List String) (text : List Char) : Option (ℕ × String) :=
  searchAltFrom alts text (text.length + 1) 0

/-- Stable insertion into a length-descending list (earlier-listed keywords
stay in front of equally long later ones, as Python's stable `sorted`). -/
def insertByLenDesc (k : String) : List String → List String
  | [] => [k]
  | x :: xs =>
      if x.toList.length ≤ k.toList.length then k :: x :: xs
      else x :: insertByLenDesc k xs

/-- `sorted(keywords, key=len, reverse=True)`: stable, longest first. -/
def sortByLenDesc : List String → List String
  | [] => []
  | k :: ks => insertByLenDesc k (sortByLenDesc ks)

/-- Scan the rule set in order; the first category whose alternation pattern
matches anywhere in the text wins. -/
def scanRules (normalized : List Char) : List (String × List String) → Option (String × String)
  | [] => none
  | (c, kws) :: rest =>
      match searchAlt (sortByLenDesc kws) normalized with
      | some (_, kwTxt) => some (c, kwTxt)
      | none => scanRules normalized rest

/--
`_match_category_and_keyword`: empty / whitespace-only text never matches;
otherwise the description is upper-cased and the per-category alternation
patterns (keywords longest-first) are tried in rule-set order.
-/
def matchCategoryAndKeyword (text : String) : Option (String × String) :=
  if (trimChars text.toList).isEmpty then none
  else scanRules (upChars text.toList) CATEGORY_RULES

/--
One filtered-expense row as the Categorizer sees it: the description cell
(already passed through `astype(str)`), the cells of the four recognized
pre-existing-category columns, and the provenance metadata.
-/
structure CRow where
  desc : String
  category : Option String := none
  categories : Option String := none
  cat : Option String := none
  typeCol : Option String := none
  src_file : String := ""
  src_dir : String := ""
deriving DecidableEq, Repr

/-- Which of the candidate pre-existing-category columns exist in the table. -/
structure CFlags where
  hasCategory : Bool := false
  hasCategories : Bool := false
  hasCat : Bool := false
  hasType : Bool := false
deriving DecidableEq, Repr

/--
The `combine_first` chain over the candidate columns `["category",
"categories", "cat", "type"]`: per row, the first non-missing value among
the candidates present, in that priority order.
-/
def existingRaw (fl : CFlags) (r : CRow) : Option String :=
  (if fl.hasCategory then r.category else none) <|>
  (if fl.hasCategories then r.categories else none) <|>
  (if fl.hasCat then r.cat else none) <|>
  (if fl.hasType then r.typeCol else none)

/-- Clean-up of pre-existing categories: strip, and empty strings (including
stringified missing values) become missing. -/
def existingClean (fl : CFlags) (r : CRow) : Option String :=
  (existingRaw fl r).bind (fun s =>
    let t := trimStr s
    if t = "" then none else some t)

/-- The rule-based match for one row (`rule_hit_cat`, `rule_hit_kw`). -/
def ruleHit (r : CRow) : Option (String × String) :=
  matchCategoryAndKeyword r.desc

/-- Resolution with fallback: rule match, else pre-existing value, else
`"Uncategorized"` — before the canonical remap. -/
def resolvedPre (fl : CFlags) (r : CRow) : String :=
  match ruleHit r with
  | some pr => pr.1
  | none =>
      match existingClean fl r with
      | some e => e
      | none => "Uncategorized"

/-- The fully resolved category of one row: the fallback chain followed by
`resolved.replace(CATEGORY_CANON, regex=True)` (`categorizer.py` line 144). -/
def resolvedRow (fl : CFlags) (r : CRow) : String :=
  applyCanon (resolvedPre fl r)

/-- One row of `matches_df`. -/
structure MatchRec where
  src_dir : String
  src_file : String
  row_index : ℕ
  desc : String
  matched_category : String
  matched_keyword : String
  final_category : String
deriving DecidableEq, Repr

/-- One row of `misses_df`. -/
structure MissRec where
  src_dir : String
  src_file : String
  row_index : ℕ
  desc : String
  existing_category : Option String
  final_category : String
  reason : String
deriving DecidableEq, Repr

/-- `summary_df`: per-category hit counts (in rule-set order, zero-hit
categories included), the total row count, and the coverage percentage. -/
structure Summary where
  hits : List (String × ℕ)
  total_rows : ℕ
  rule_coverage_pct : ℚ
deriving DecidableEq, Repr

/-- Round `a / b` (with `b > 0`) to the nearest integer, ties to even —
Python's `round`, on the exact rational the pipeline's floats stand for. -/
def roundHalfEvenNat (a b : ℕ) : ℕ :=
  let q := a / b
  let r := a % b
  if 2 * r < b then q
  else if b < 2 * r then q + 1
  else if q % 2 = 0 then q else q + 1

/-- `round(matched / total * 100.0, 2)` with the zero-rows guard. -/
def rule_coverage (m total : ℕ) : ℚ :=
  if total = 0 then 0 else (roundHalfEvenNat (m * 10000) total : ℚ) / 100

/-- One (index, row) pair's contribution to `matches_df`, if any. -/
def matchRecOf (p : ℕ × CRow) : Option MatchRec :=
  match ruleHit p.2 with
  | some pr =>
      some ⟨p.2.src_dir, p.2.src_file, p.1, p.2.desc, pr.1, pr.2, applyCanon pr.1⟩
  | none => none

/-- One (index, row) pair's contribution to `misses_df`, if any. -/
def missRecOf (fl : CFlags) (p : ℕ × CRow) : Option MissRec :=
  match ruleHit p.2 with
  | some _ => none
  | none =>
      some ⟨p.2.src_dir, p.2.src_file, p.1, p.2.desc, existingClean fl p.2,
            resolvedRow fl p.2,
            if (trimChars p.2.desc.toList).isEmpty then "empty_description"
            else "no_keyword_match"⟩

/-- The number of rows whose description hit a keyword rule. -/
def countRuleMatched (rows : List CRow) : ℕ :=
  (rows.filter (fun r => (ruleHit r).isSome)).length

/--
`detect_or_build_category_with_debug`: the resolved category series plus the
three diagnostic tables.
-/
def detect_or_build_category_with_debug (rows : List CRow) (fl : CFlags) :
    List String × List MatchRec × List MissRec × Summary :=
  let resolved := rows.map (resolvedRow fl)
  let matchRecs := rows.enum.filterMap matchRecOf
  let missRecs := rows.enum.filterMap (missRecOf fl)
  let hits := CATEGORY_RULES.map (fun pr =>
    (pr.1, (rows.filter (fun r => (ruleHit r).map Prod.fst == some pr.1)).length))
  (resolved, matchRecs, missRecs,
    ⟨hits, rows.length, rule_coverage matchRecs.length rows.length⟩)

/--
Steps 7 of `run_pipeline` (lines 382–386): per row the triple
`(Category, CategoryOriginal, CategoryGroup)`.  `Category` is the resolved
series returned by the categorizer (which has already applied the canonical
remap), `CategoryOriginal` copies `Category`, and `CategoryGroup` applies
the remap to `Category` again (the `fillna` fallback is a no-op because the
replace is total).
-/
def pipelineCategoryColumns (rows : List CRow) (fl : CFlags) :
    List (String × String × String) :=
  (detect_or_build_category_with_debug rows fl).1.map (fun c => (c, c, applyCanon c))

/-! ## Loading (`runner.py`, `load_transactions` / `run_pipeline` step 1) -/

/-- The two fatal front-end errors of `run_pipeline`, kept distinct:
`FileNotFoundError("No CSV inputs found...")` raised before loading, and
`RuntimeError("No inputs could be read...")` raised by `load_transactions`. -/
inductive PipelineError where
  | noInputsFound
  | noInputsReadable
deriving DecidableEq, Repr

/-- Index of the last `/` in a path, if any. -/
def lastSlashIdx (l : List Char) : Option ℕ :=
  ((l.enum.filter (fun x => x.2 = '/')).map Prod.fst).getLast?

/-- `os.path.basename`: everything after the last slash. -/
def baseName (p : String) : String :=
  match lastSlashIdx p.toList with
  | none => p
  | some i => ⟨p.toList.drop (i + 1)⟩

/-- `os.path.dirname`: everything up to the last slash, trailing slashes
stripped unless the head is nothing but slashes. -/
def dirName (p : String) : String :=
  match lastSlashIdx p.toList with
  | none => ""
  | some i =>
      let head := p.toList.take (i + 1)
      if head.all (fun c => c = '/') then ⟨head⟩
      else ⟨(head.reverse.dropWhile (fun c => c = '/')).reverse⟩

/--
`load_transactions`, with the per-file CSV read abstracted as a function
`readFile : path → rows-or-error` (the I/O boundary of the model): every
file is attempted, failures are recorded as `(path, message)` pairs and
skipped, successes are tagged with `(basename, dirname)` provenance and
concatenated; if no file at all was readable, the distinct
`noInputsReadable` error is raised.
-/
def loadFrames {α : Type} (readFile : String → Except String (List α))
    (paths : List String) : List (List (α × String × String)) :=
  paths.filterMap (fun p =>
    match readFile p with
    | .ok rs => some (rs.map (fun x => (x, baseName p, dirName p)))
    | .error _ => none)

/-- The `failed` list accumulated by `load_transactions`. -/
def loadFailures {α : Type} (readFile : String → Except String (List α))
    (paths : List String) : List (String × String) :=
  paths.filterMap (fun p =>
    match readFile p with
    | .error e => some (p, e)
    | .ok _ => none)

/-- The `load_transactions` entry point itself. -/
def load_transactions {α : Type} (readFile : String → Except String (List α))
    (paths : List String) :
    Except PipelineError (List (α × String × String) × List (String × String)) :=
  if (loadFrames readFile paths).isEmpty then .error .noInputsReadable
  else .ok ((loadFrames readFile paths).flatten, loadFailures readFile paths)

/-- Step 1 of `run_pipeline`: an empty expansion result is the (distinct)
`noInputsFound` error, before any file is read. -/
def resolveInputs (input_paths : List String) : Except PipelineError (List String) :=
  if input_paths.isEmpty then .error .noInputsFound else .ok input_paths

/-! ## Concrete example data used by the claim theorems -/

/-- Two input files that share the basename `x.csv` in different
directories (claim C1's counterexample table). -/
def c1Rows : List Txn :=
  [{ source_dir := "a", source_file := "x.csv", amount := some "-5" },
   { source_dir := "b", source_file := "x.csv", amount := some "3" }]

/-- A single-source table with amount column `[-50, -20, 30]` (claim C4's
worked example). -/
def c4Rows : List Txn :=
  [{ source_dir := "d", source_file := "f.csv", amount := some "-50" },
   { source_dir := "d", source_file := "f.csv", amount := some "-20" },
   { source_dir := "d", source_file := "f.csv", amount := some "30" }]

/-- A single-source table with 1 negative and 7 positive amounts: the
floored threshold `max(1, int(0.2*7)) = 1` accepts it, the spec's exact
20% threshold (`1.4`) does not (claim C4's counterexample table). -/
def c4EdgeRows : List Txn :=
  [{ source_dir := "d", source_file := "f.csv", amount := some "-1" },
   { source_dir := "d", source_file := "f.csv", amount := some "1" },
   { source_dir := "d", source_file := "f.csv", amount := some "2" },
   { source_dir := "d", source_file := "f.csv", amount := some "3" },
   { source_dir := "d", source_file := "f.csv", amount := some "4" },
   { source_dir := "d", source_file := "f.csv", amount := some "5" },
   { source_dir := "d", source_file := "f.csv", amount := some "6" },
   { source_dir := "d", source_file := "f.csv", amount := some "7" }]

/-- Claim C5's end-to-end table: file A with a debit column `[10, 0]`,
file B with an amount column `[-5, 3]`. -/
def c5Rows : List Txn :=
  [{ source_dir := "d", source_file := "a.csv", debit := some "10" },
   { source_dir := "d", source_file := "a.csv", debit := some "0" },
   { source_dir := "d", source_file := "b.csv", amount := some "-5" },
   { source_dir := "d", source_file := "b.csv", amount := some "3" }]

/-- Ten expense rows of which exactly seven match a keyword rule (claim
C7's coverage example). -/
def c7Rows : List CRow :=
  [{ desc := "STARBUCKS STORE 1" }, { desc := "STARBUCKS STORE 2" },
   { desc := "MCDONALD 42" }, { desc := "NETFLIX.COM" },
   { desc := "SAFEWAY 0117" }, { desc := "AMAZON MKTP" },
   { desc := "SHELL OIL" },
   { desc := "LOCAL FARM STAND" }, { desc := "ZZZ UNKNOWN" }, { desc := "" }]

/-- A one-row categorizer input whose description hits the `Coffee` rule
(claim C2's failing input). -/
def c2Rows : List CRow :=
  [{ desc := "STARBUCKS", src_file := "x.csv", src_dir := "a" }]

/-- A table whose `date` column is already normalized (claim C9's witness). -/
def c9Table : NTable :=
  [("date", [.str "2023-01-05", .str "1999-12-31"]),
   ("description", [.str "STARBUCKS", .str "COFFEE"])]

/-- A read function for claim C8's witness: one good file, one bad. -/
def c8Read : String → Except String (List ℕ) :=
  fun p => if p = "a/x.csv" then .ok [7] else .error "boom"

/-! ## Theorems -/

theorem Dec.toRat_neg_iff (d : Dec) : d.toRat < 0 ↔ d.num < 0 := by
  unfold Dec.toRat
  rw [div_neg_iff]
  constructor
  · rintro (⟨_, h⟩ | ⟨h, _⟩)
    · exact absurd h (not_lt.mpr (by positivity))
    · exact_mod_cast h
  · intro h
    exact Or.inr ⟨by exact_mod_cast h, by positivity⟩

/--
C6 (confirmed): the currency-coercion helper strips the currency symbol and
thousands separators, converts parenthesised accounting notation to a
negative and parses the result, unparseable input becoming missing:
`"(1,234.50)" ↦ -1234.50`, `"$45.00" ↦ 45.00`, `"abc" ↦` missing.
-/
theorem C6_coerce_money_examples :
    (coerce_money "(1,234.50)").map Dec.toRat = some (-1234.5 : ℚ) ∧
    (coerce_money "$45.00").map Dec.toRat = some (45 : ℚ) ∧
    coerce_money "abc" = none := by
  refine ⟨?_, ?_, by decide⟩
  · have h : coerce_money "(1,234.50)" = some ⟨-123450, 2⟩ := by decide
    rw [h]
    simp only [Option.map_some']
    norm_num [Dec.toRat]
  · have h : coerce_money "$45.00" = some ⟨4500, 2⟩ := by decide
    rw [h]
    simp only [Option.map_some']
    norm_num [Dec.toRat]

/--
C1 (corrected): the Amount Resolver's sign decision for a row is local to
the rows sharing that row's `__source_file` basename — appending rows whose
basename differs never changes the decision.  (The grouping key is the
basename alone, not the (directory, filename) provenance pair; see
`C1_counterexample`.)
-/
theorem C1_basename_group_locality :
    ∀ (rows extra : List Txn) (dFlag cFlag aFlag : Bool) (r : Txn),
      (∀ e ∈ extra, e.source_file ≠ r.source_file) →
      rowSigned (rows ++ extra) dFlag cFlag aFlag r =
        rowSigned rows dFlag cFlag aFlag r := by
  intro rows extra d c a r h
  unfold rowSigned groupRows
  rw [List.filter_append]
  have hnil : extra.filter (fun x => x.source_file == r.source_file) = [] := by
    rw [List.filter_eq_nil_iff]
    intro e he
    simpa using h e he
  rw [hnil, List.append_nil]

/-- Witness for `C1_basename_group_locality` at a concrete table. -/
theorem C1_basename_group_locality_witness :
    rowSigned (c1Rows ++ [⟨"c", "y.csv", none, none, some "9"⟩]) false false true
        ⟨"a", "x.csv", none, none, some "-5"⟩ =
      rowSigned c1Rows false false true ⟨"a", "x.csv", none, none, some "-5"⟩ :=
  C1_basename_group_locality c1Rows [⟨"c", "y.csv", none, none, some "9"⟩]
    false false true ⟨"a", "x.csv", none, none, some "-5"⟩ (by decide)

/--
C1 counterexample: on two one-row files that share the basename `x.csv` in
directories `a` and `b`, the code pools both rows into one group (the `3`
from `b/x.csv` is zeroed because `a/x.csv`'s `-5` tips the shared decision
to "negatives = expenses"), while the provenance-pair grouping the claim
describes would treat `b/x.csv` independently and flip its `3` to `-3`.
-/
theorem C1_counterexample :
    build_signed_amount_per_source c1Rows false false true =
      [some ⟨-5, 0⟩, some ⟨0, 0⟩] ∧
    buildSignedPerProvenanceSpec c1Rows false false true =
      [some ⟨-5, 0⟩, some ⟨-3, 0⟩] ∧
    build_signed_amount_per_source c1Rows false false true ≠
      buildSignedPerProvenanceSpec c1Rows false false true := by decide

/--
C4 (corrected): for a single-source table resolved through the amount
column (no usable debit data), the "negative = expense" convention is
selected exactly when the negative count reaches `max(1, ⌊20% · positive
count⌋)` — the 20% fraction is floored by Python's `int()`, which is the
one amendment to the claim; the selected branch keeps negatives and zeroes
positives, the other negates positives and zeroes negatives, and on the
amounts `[-50, -20, 30]` the result is `[-50, -20, 0]` as claimed.
-/
theorem C4_amount_sign_convention :
    (∀ (rows : List Txn) (src : String) (dFlag cFlag : Bool),
        (∀ r ∈ rows, r.source_file = src) →
        (dFlag && hasNonNull rows (fun x => x.debit)) = false →
        hasNonNull rows (fun x => x.amount) = true →
        build_signed_amount_per_source rows dFlag cFlag true =
          rows.map (fun r =>
            some (if decideNegConvention (negCount rows) (posCount rows)
                  then keepNegatives (coerceCell r.amount)
                  else flipPositives (coerceCell r.amount)))) ∧
    (build_signed_amount_per_source c4Rows false false true).map
        (Option.map Dec.toRat) =
      [some (-50 : ℚ), some (-20 : ℚ), some (0 : ℚ)] := by
  constructor
  · intro rows src d c hall hd ha
    unfold build_signed_amount_per_source
    apply List.map_congr_left
    intro r hr
    unfold rowSigned
    have hg : groupRows rows r.source_file = rows := by
      unfold groupRows
      rw [List.filter_eq_self]
      intro x hx
      simp [hall x hx, hall r hr]
    rw [hg]
    unfold signedForGroup
    simp [hd, ha]
    split <;> rfl
  · have h : build_signed_amount_per_source c4Rows false false true =
        [some ⟨-50, 0⟩, some ⟨-20, 0⟩, some ⟨0, 0⟩] := by decide
    rw [h]
    norm_num [Dec.toRat]

/-- Witness for `C4_amount_sign_convention` at the `[-50, -20, 30]` table. -/
theorem C4_amount_sign_convention_witness :
    build_signed_amount_per_source c4Rows false false true =
      c4Rows.map (fun r =>
        some (if decideNegConvention (negCount c4Rows) (posCount c4Rows)
              then keepNegatives (coerceCell r.amount)
              else flipPositives (coerceCell r.amount))) :=
  C4_amount_sign_convention.1 c4Rows "f.csv" false false
    (by decide) (by decide) (by decide)

/--
C4 counterexample: with 1 negative and 7 positive amounts the code's
floored threshold `max(1, int(0.2·7)) = 1` selects "negative = expense"
(`-1` kept, positives zeroed), although 1 is not at least 20% of 7, so the
claim's exact-20% policy would negate the positives instead.
-/
theorem C4_counterexample :
    negCount c4EdgeRows = 1 ∧ posCount c4EdgeRows = 7 ∧
    decideNegConvention 1 7 = true ∧ specNegConvention 1 7 = false ∧
    build_signed_amount_per_source c4EdgeRows false false true ≠
      buildSignedSpecThreshold c4EdgeRows false false true := by decide

/--
C5 (confirmed): after signed amounts are computed the pipeline keeps
exactly the (row, signed-amount) pairs whose signed amount is present and
strictly negative — inflow, zero and missing rows are discarded — and on
the two-file example (debit `[10, 0]`, amount `[-5, 3]`) exactly the two
rows with signed amounts `-10` and `-5` survive.
-/
theorem C5_expense_filter :
    (∀ (rows : List Txn) (dFlag cFlag aFlag : Bool) (p : Txn × Option Dec),
        p ∈ filterExpenses rows dFlag cFlag aFlag ↔
          p ∈ rows.zip (build_signed_amount_per_source rows dFlag cFlag aFlag) ∧
            ∃ q : Dec, p.2 = some q ∧ q.toRat < 0) ∧
    (filterExpenses c5Rows true false true).map (fun p => p.2.map Dec.toRat) =
      [some (-10 : ℚ), some (-5 : ℚ)] := by
  constructor
  · intro rows d c a p
    unfold filterExpenses
    rw [List.mem_filter]
    cases hp : p.2 with
    | none => simp [hp]
    | some q => simp [hp, Dec.isNeg, Dec.toRat_neg_iff]
  · have h : filterExpenses c5Rows true false true =
        [(⟨"d", "a.csv", some "10", none, none⟩, some ⟨-10, 0⟩),
         (⟨"d", "b.csv", none, none, some "-5"⟩, some ⟨-5, 0⟩)] := by decide
    rw [h]
    norm_num [Dec.toRat]

theorem charToNat_inj {a b : Char} (h : a.toNat = b.toNat) : a = b := by
  apply Char.ext
  exact UInt32.ext h

theorem charOfNat_toNat {n : ℕ} (h : n < 55296) : (Char.ofNat n).toNat = n := by
  unfold Char.ofNat
  rw [dif_pos (Or.inl h : n.isValidChar)]
  rfl

theorem asciiLower_toNat (c : Char) :
    (asciiLower c).toNat =
      if 65 ≤ c.toNat ∧ c.toNat ≤ 90 then c.toNat + 32 else c.toNat := by
  unfold asciiLower
  split
  · next h => exact charOfNat_toNat (by omega)
  · rfl

theorem asciiLower_idem (c : Char) : asciiLower (asciiLower c) = asciiLower c := by
  apply charToNat_inj
  rw [asciiLower_toNat, asciiLower_toNat]
  split_ifs <;> omega

theorem collapseWSAux_ws_false :
    ∀ (b : Bool) (l : List Char), ∀ c ∈ collapseWSAux b l, isWS c = false := by
  intro b l
  induction l generalizing b with
  | nil => intro c hc; simp [collapseWSAux] at hc
  | cons x xs ih =>
      intro c hc
      unfold collapseWSAux at hc
      split at hc
      · split at hc
        · exact ih true c hc
        · rcases List.mem_cons.mp hc with h | h
          · subst h; decide
          · exact ih true c h
      · next hx =>
          rcases List.mem_cons.mp hc with h | h
          · subst h; simpa using hx
          · exact ih false c h

theorem collapseWSAux_mem :
    ∀ (b : Bool) (l : List Char), ∀ c ∈ collapseWSAux b l, c = '_' ∨ c ∈ l := by
  intro b l
  induction l generalizing b with
  | nil => intro c hc; simp [collapseWSAux] at hc
  | cons x xs ih =>
      intro c hc
      unfold collapseWSAux at hc
      split at hc
      · split at hc
        · rcases ih true c hc with h | h
          · exact Or.inl h
          · exact Or.inr (List.mem_cons_of_mem x h)
        · rcases List.mem_cons.mp hc with h | h
          · exact Or.inl h
          · rcases ih true c h with h2 | h2
            · exact Or.inl h2
            · exact Or.inr (List.mem_cons_of_mem x h2)
      · rcases List.mem_cons.mp hc with h | h
        · exact Or.inr (h ▸ List.mem_cons_self x xs)
        · rcases ih false c h with h2 | h2
          · exact Or.inl h2
          · exact Or.inr (List.mem_cons_of_mem x h2)

theorem collapseWSAux_id :
    ∀ (b : Bool) (l : List Char), (∀ c ∈ l, isWS c = false) →
      collapseWSAux b l = l := by
  intro b l
  induction l generalizing b with
  | nil => intro _; rfl
  | cons x xs ih =>
      intro h
      unfold collapseWSAux
      rw [if_neg (by simp [h x (List.mem_cons_self x xs)])]
      rw [ih false (fun c hc => h c (List.mem_cons_of_mem x hc))]

theorem dropWhile_ws_id (l : List Char) (h : ∀ c ∈ l, isWS c = false) :
    l.dropWhile isWS = l := by
  cases l with
  | nil => rfl
  | cons x xs => simp [List.dropWhile_cons, h x (List.mem_cons_self x xs)]

theorem trimChars_id (l : List Char) (h : ∀ c ∈ l, isWS c = false) :
    trimChars l = l := by
  unfold trimChars
  rw [dropWhile_ws_id l h]
  rw [dropWhile_ws_id l.reverse (fun c hc => h c (List.mem_reverse.mp hc))]
  exact List.reverse_reverse l

theorem normHeader_idem (s : String) : normHeader (normHeader s) = normHeader s := by
  unfold normHeader
  congr 1
  show collapseWS
      ((trimChars (collapseWS ((trimChars s.toList).map asciiLower))).map asciiLower) =
    collapseWS ((trimChars s.toList).map asciiLower)
  set L := collapseWS ((trimChars s.toList).map asciiLower) with hL
  have hws : ∀ c ∈ L, isWS c = false := collapseWSAux_ws_false false _
  have hmem : ∀ c ∈ L, c = '_' ∨ c ∈ (trimChars s.toList).map asciiLower :=
    collapseWSAux_mem false _
  rw [trimChars_id L hws]
  have hmap : L.map asciiLower = L := by
    have : ∀ c ∈ L, asciiLower c = c := by
      intro c hc
      rcases hmem c hc with h | h
      · subst h; decide
      · rcases List.mem_map.mp h with ⟨x, _, hx⟩
        rw [← hx]
        exact asciiLower_idem x
    exact (List.map_congr_left fun c hc => this c hc).trans (List.map_id L)
  rw [hmap]
  exact collapseWSAux_id false L hws

theorem normDateCol_id (cells : List Cell)
    (h : ∀ cell ∈ cells, isNormalizedDateCell cell = true) :
    normDateCol cells = cells := by
  unfold normDateCol
  have hcell : ∀ cell ∈ cells, ∃ s d,
      cell = Cell.str s ∧ parseDateChars s.toList = some d ∧
      formatDateChars d = s.toList := by
    intro cell hc
    have := h cell hc
    cases cell with
    | date d => simp [isNormalizedDateCell] at this
    | str s =>
        simp only [isNormalizedDateCell] at this
        cases hp : parseDateChars s.toList with
        | none => rw [hp] at this; simp at this
        | some d =>
            rw [hp] at this
            exact ⟨s, d, rfl, hp, by simpa using this⟩
  rw [if_pos]
  · rw [List.map_map]
    refine (List.map_congr_left ?_).trans (List.map_id cells)
    intro cell hc
    rcases hcell cell hc with ⟨s, d, hcs, hp, hf⟩
    subst hcs
    simp only [Function.comp, cellParse, hp]
    rw [hf]
    rfl
  · rw [List.all_eq_true]
    intro cell hc
    rcases List.mem_map.mp hc with ⟨orig, ho, hor⟩
    rcases hcell orig ho with ⟨s, d, hcs, hp, _⟩
    subst hcs
    simp only [cellParse, hp] at hor
    rw [← hor]
    simp [cellParse]

theorem normalize_date_columns_fixed :
    ∀ (cands : List String) (t : NTable),
      (∀ col ∈ t, col.1 ∈ cands → ∀ cell ∈ col.2, isNormalizedDateCell cell = true) →
      normalize_date_columns t cands = t := by
  intro cands
  induction cands with
  | nil => intro t _; rfl
  | cons c cs ih =>
      intro t h
      unfold normalize_date_columns
      rw [List.foldl_cons]
      have hstep : t.map
          (fun col => if col.1 = c then (col.1, normDateCol col.2) else col) = t := by
        refine (List.map_congr_left ?_).trans (List.map_id t)
        intro col hcol
        by_cases hc : col.1 = c
        · rw [if_pos hc]
          rw [normDateCol_id col.2 (h col hcol (hc ▸ List.mem_cons_self c cs))]
          rfl
        · rw [if_neg hc]
          rfl
      rw [hstep]
      exact ih t (fun col hcol hin => h col hcol (List.mem_cons_of_mem c hin))

/--
C9 (confirmed): the Schema Normalizer is idempotent — header normalization
applied twice equals header normalization applied once on every table, and
re-running date normalization on a table whose candidate date columns
already hold `YYYY-MM-DD` strings changes nothing.
-/
theorem C9_normalizer_idempotent :
    (∀ t : NTable, normalize_headers (normalize_headers t) = normalize_headers t) ∧
    (∀ (t : NTable) (cands : List String),
        datesAlreadyNormalized t cands = true →
        normalize_date_columns t cands = t) := by
  constructor
  · intro t
    unfold normalize_headers
    rw [List.map_map]
    apply List.map_congr_left
    intro col _
    simp [Function.comp, normHeader_idem]
  · intro t cands h
    apply normalize_date_columns_fixed
    intro col hcol hin cell hcell
    unfold datesAlreadyNormalized at h
    rw [List.all_eq_true] at h
    have := h col hcol
    rw [Bool.or_eq_true] at this
    rcases this with hc | hc
    · rw [Bool.not_eq_true'] at hc
      have hcon : cands.contains col.1 = true := List.elem_iff.mpr hin
      rw [hcon] at hc
      simp at hc
    · rw [List.all_eq_true] at hc
      exact hc cell hcell

/-- Witness for `C9_normalizer_idempotent` on a concrete already-normalized
table. -/
theorem C9_normalizer_idempotent_witness :
    normalize_date_columns c9Table ["transaction_date", "posted_date", "date"] =
      c9Table :=
  C9_normalizer_idempotent.2 c9Table ["transaction_date", "posted_date", "date"]
    (by decide)

/--
C10 (confirmed): on an empty input table the Categorizer divides by
nothing — the zero-rows guard makes the coverage `0.0`, the matches and
misses tables are empty, and the summary still lists every rule-set
category with hit count `0`.
-/
theorem C10_empty_table_safe :
    ∀ fl : CFlags,
      detect_or_build_category_with_debug [] fl =
        ([], [], [], ⟨CATEGORY_RULES.map (fun pr => (pr.1, 0)), 0, 0⟩) := by
  intro fl
  rfl

/--
C2 (code_bug): the `CategoryOriginal` column is assigned from `df["Category"]`
after the categorizer has already applied the canonical remap
(`categorizer.py` line 144), so for a row resolving to `Coffee` the
"original (pre-remap) category" column holds `Household` — equal to the
canonical-group column — instead of the pre-remap value `Coffee` that the
spec (and the code's own `# Before remapping` comment) promise; the
pre-remap value is visible only in `matches_df.matched_category`.
-/
theorem C2_original_category_is_postremap :
    pipelineCategoryColumns c2Rows {} = [("Household", "Household", "Household")] ∧
    (detect_or_build_category_with_debug c2Rows {}).2.1 =
      [⟨"a", "x.csv", 0, "STARBUCKS", "Coffee", "STARBUCKS", "Household"⟩] ∧
    ("Household" : String) ≠ "Coffee" := by decide

theorem matchRecOf_filterMap_length :
    ∀ l : List (ℕ × CRow),
      (l.filterMap matchRecOf).length =
        (l.filter (fun p => (ruleHit p.2).isSome)).length := by
  intro l
  induction l with
  | nil => rfl
  | cons p l ih =>
      rw [List.filterMap_cons, List.filter_cons]
      unfold matchRecOf
      cases hr : ruleHit p.2 with
      | none => simpa [hr] using ih
      | some pr => simpa [hr] using ih

theorem enumFrom_filter_snd_length {α : Type} (q : α → Bool) :
    ∀ (l : List α) (n : ℕ),
      ((List.enumFrom n l).filter (fun p => q p.2)).length =
        (l.filter q).length := by
  intro l
  induction l with
  | nil => intro n; rfl
  | cons x xs ih =>
      intro n
      rw [List.enumFrom_cons, List.filter_cons, List.filter_cons]
      cases hq : q x with
      | false => simpa [hq] using ih (n + 1)
      | true => simpa [hq] using ih (n + 1)

theorem matches_length_eq_countRuleMatched (rows : List CRow) :
    (rows.enum.filterMap matchRecOf).length = countRuleMatched rows := by
  rw [matchRecOf_filterMap_length]
  unfold countRuleMatched
  exact enumFrom_filter_snd_length (fun r => (ruleHit r).isSome) rows 0

/--
C7 (confirmed): the Categorizer's summary lists a hit count for every
rule-set category (zero-hit ones included, in rule-set order), carries the
total row count, and its coverage percentage is matched-rows / total-rows ×
100 rounded to two decimals; on 10 rows of which 7 match a rule the
coverage is `70.0`.
-/
theorem detect_matches_eq (rows : List CRow) (fl : CFlags) :
    (detect_or_build_category_with_debug rows fl).2.1 =
      rows.enum.filterMap matchRecOf := rfl

theorem detect_summary_hits (rows : List CRow) (fl : CFlags) :
    (detect_or_build_category_with_debug rows fl).2.2.2.hits =
      CATEGORY_RULES.map (fun pr =>
        (pr.1, (rows.filter
          (fun r => (ruleHit r).map Prod.fst == some pr.1)).length)) := rfl

theorem detect_summary_coverage (rows : List CRow) (fl : CFlags) :
    (detect_or_build_category_with_debug rows fl).2.2.2.rule_coverage_pct =
      rule_coverage (rows.enum.filterMap matchRecOf).length rows.length := rfl

theorem C7_summary_coverage :
    (∀ (rows : List CRow) (fl : CFlags),
        (detect_or_build_category_with_debug rows fl).2.2.2.hits.map Prod.fst =
            CATEGORY_RULES.map Prod.fst ∧
        (detect_or_build_category_with_debug rows fl).2.2.2.total_rows = rows.length ∧
        (detect_or_build_category_with_debug rows fl).2.1.length = countRuleMatched rows ∧
        (detect_or_build_category_with_debug rows fl).2.2.2.rule_coverage_pct =
          rule_coverage (countRuleMatched rows) rows.length) ∧
    countRuleMatched c7Rows = 7 ∧ c7Rows.length = 10 ∧
    (detect_or_build_category_with_debug c7Rows {}).2.2.2.rule_coverage_pct = 70 := by
  refine ⟨?_, by decide, by decide, ?_⟩
  · intro rows fl
    refine ⟨?_, rfl, ?_, ?_⟩
    · rw [detect_summary_hits, List.map_map]
      exact List.map_congr_left (fun pr _ => rfl)
    · rw [detect_matches_eq]
      exact matches_length_eq_countRuleMatched rows
    · rw [detect_summary_coverage, matches_length_eq_countRuleMatched]
  · rw [detect_summary_coverage, matches_length_eq_countRuleMatched]
    have h1 : countRuleMatched c7Rows = 7 := by decide
    have h2 : c7Rows.length = 10 := by decide
    rw [h1, h2]
    unfold rule_coverage
    rw [if_neg (by omega)]
    have h3 : roundHalfEvenNat (7 * 10000) 10 = 7000 := by decide
    rw [h3]
    norm_num

/--
C8 (confirmed): `load_transactions` recovers locally from per-file read
errors — every failing file is recorded as a `(path, message)` pair while
every readable file's rows still reach the combined frame — and the load
step itself fails, with the `noInputsReadable` error distinct from the
front-end `noInputsFound` error, exactly when every input file failed to
read.
-/
theorem C8_load_error_recovery :
    ∀ {α : Type} (readFile : String → Except String (List α)) (paths : List String),
      (load_transactions readFile paths = .error .noInputsReadable ↔
          ∀ p ∈ paths, ∃ e, readFile p = .error e) ∧
      (∀ frame failed,
          load_transactions readFile paths = .ok (frame, failed) →
          (∀ pe : String × String,
              pe ∈ failed ↔ pe.1 ∈ paths ∧ readFile pe.1 = .error pe.2) ∧
          (∀ p rs, p ∈ paths → readFile p = .ok rs →
              ∀ x ∈ rs, (x, baseName p, dirName p) ∈ frame)) ∧
      (PipelineError.noInputsReadable ≠ PipelineError.noInputsFound) := by
  intro α readFile paths
  refine ⟨?_, ?_, by decide⟩
  · unfold load_transactions
    constructor
    · intro h
      split at h
      · next hemp =>
          rw [List.isEmpty_iff] at hemp
          unfold loadFrames at hemp
          rw [List.filterMap_eq_nil_iff] at hemp
          intro p hp
          have hnone := hemp p hp
          cases hr : readFile p with
          | ok rs => rw [hr] at hnone; simp at hnone
          | error e => exact ⟨e, rfl⟩
      · simp at h
    · intro h
      rw [if_pos]
      rw [List.isEmpty_iff]
      unfold loadFrames
      rw [List.filterMap_eq_nil_iff]
      intro p hp
      rcases h p hp with ⟨e, he⟩
      rw [he]
  · intro frame failed h
    unfold load_transactions at h
    split at h
    · simp at h
    · rw [Except.ok.injEq, Prod.mk.injEq] at h
      obtain ⟨hf, hl⟩ := h
      constructor
      · intro pe
        rw [← hl]
        unfold loadFailures
        rw [List.mem_filterMap]
        constructor
        · rintro ⟨p, hp, hsome⟩
          cases hr : readFile p with
          | ok rs => rw [hr] at hsome; simp at hsome
          | error e =>
              rw [hr] at hsome
              simp only [Option.some.injEq] at hsome
              rw [← hsome]
              exact ⟨hp, hr⟩
        · rintro ⟨hp1, hp2⟩
          refine ⟨pe.1, hp1, ?_⟩
          rw [hp2]
      · intro p rs hp hr x hx
        rw [← hf, List.mem_flatten]
        refine ⟨rs.map (fun y => (y, baseName p, dirName p)), ?_, ?_⟩
        · unfold loadFrames
          rw [List.mem_filterMap]
          refine ⟨p, hp, ?_⟩
          rw [hr]
        · exact List.mem_map_of_mem _ hx

/-- Witness for `C8_load_error_recovery`: with one readable and one
unreadable input, the good file's row reaches the combined frame. -/
theorem C8_load_error_recovery_witness :
    ((7 : ℕ), "x.csv", "a") ∈ ([((7 : ℕ), "x.csv", "a")] : List (ℕ × String × String)) :=
  ((C8_load_error_recovery c8Read ["a/x.csv", "b/y.csv"]).2.1
      [((7 : ℕ), "x.csv", "a")] [("b/y.csv", "boom")] rfl).2
    "a/x.csv" [7] (by decide) rfl 7 (by decide)

theorem mem_insertByLenDesc {a k : String} {l : List String} :
    a ∈ insertByLenDesc k l ↔ a = k ∨ a ∈ l := by
  induction l with
  | nil => simp [insertByLenDesc]
  | cons x xs ih =>
      unfold insertByLenDesc
      split
      · simp [List.mem_cons]
      · simp only [List.mem_cons, ih]
        tauto

theorem pairwise_insertByLenDesc {k : String} {l : List String}
    (h : l.Pairwise (fun x y => y.toList.length ≤ x.toList.length)) :
    (insertByLenDesc k l).Pairwise (fun x y => y.toList.length ≤ x.toList.length) := by
  induction l with
  | nil => simp [insertByLenDesc]
  | cons x xs ih =>
      rw [List.pairwise_cons] at h
      obtain ⟨hx, hxs⟩ := h
      unfold insertByLenDesc
      split
      · next hle =>
          rw [List.pairwise_cons]
          refine ⟨?_, List.pairwise_cons.mpr ⟨hx, hxs⟩⟩
          intro b hb
          rcases List.mem_cons.mp hb with rfl | hb2
          · exact hle
          · exact le_trans (hx b hb2) hle
      · next hgt =>
          rw [List.pairwise_cons]
          refine ⟨?_, ih hxs⟩
          intro b hb
          rcases mem_insertByLenDesc.mp hb with rfl | hb2
          · omega
          · exact hx b hb2

theorem pairwise_sortByLenDesc (l : List String) :
    (sortByLenDesc l).Pairwise (fun x y => y.toList.length ≤ x.toList.length) := by
  induction l with
  | nil => simp [sortByLenDesc]
  | cons k ks ih => exact pairwise_insertByLenDesc ih

theorem mem_sortByLenDesc {a : String} {l : List String} :
    a ∈ sortByLenDesc l ↔ a ∈ l := by
  induction l with
  | nil => simp [sortByLenDesc]
  | cons k ks ih =>
      unfold sortByLenDesc
      rw [mem_insertByLenDesc, ih, List.mem_cons]

theorem find?_first_max {q : String → Bool} :
    ∀ {l : List String} {a : String},
      l.Pairwise (fun x y => y.toList.length ≤ x.toList.length) →
      l.find? q = some a →
      ∀ b ∈ l, q b = true → b.toList.length ≤ a.toList.length := by
  intro l
  induction l with
  | nil => intro a _ h; simp at h
  | cons x xs ih =>
      intro a hpw hf b hb hq
      rw [List.pairwise_cons] at hpw
      obtain ⟨hx, hxs⟩ := hpw
      by_cases hqx : q x = true
      · rw [List.find?_cons_of_pos _ hqx] at hf
        injection hf with hf
        subst hf
        rcases List.mem_cons.mp hb with rfl | hb2
        · exact le_refl _
        · exact hx b hb2
      · rw [List.find?_cons_of_neg _ (by simpa using hqx)] at hf
        rcases List.mem_cons.mp hb with rfl | hb2
        · exact absurd hq hqx
        · exact ih hxs hf b hb2 hq

theorem searchAltFrom_spec {alts : List String} {text : List Char} :
    ∀ (fuel p q : ℕ) (kw : String),
      searchAltFrom alts text fuel p = some (q, kw) →
      p ≤ q ∧
      (∃ k, firstMatchAt alts text q = some k ∧
        kw = ⟨(text.drop q).take k.toList.length⟩) ∧
      (∀ j, p ≤ j → j < q → firstMatchAt alts text j = none) := by
  intro fuel
  induction fuel with
  | zero => intro p q kw h; simp [searchAltFrom] at h
  | succ fuel ih =>
      intro p q kw h
      unfold searchAltFrom at h
      cases hf : firstMatchAt alts text p with
      | some k =>
          rw [hf] at h
          simp only [Option.some.injEq, Prod.mk.injEq] at h
          obtain ⟨rfl, rfl⟩ := h
          exact ⟨le_refl p, ⟨k, hf, rfl⟩, fun j h1 h2 => absurd h2 (by omega)⟩
      | none =>
          rw [hf] at h
          obtain ⟨h1, h2, h3⟩ := ih (p + 1) q kw h
          refine ⟨by omega, h2, ?_⟩
          intro j hj1 hj2
          rcases Nat.eq_or_lt_of_le hj1 with rfl | hlt
          · exact hf
          · exact h3 j (by omega) hj2

theorem scanRules_spec {normalized : List Char} :
    ∀ (rules : List (String × List String)) (c kwTxt : String),
      scanRules normalized rules = some (c, kwTxt) →
      ∃ kws p, (c, kws) ∈ rules ∧
        searchAlt (sortByLenDesc kws) normalized = some (p, kwTxt) := by
  intro rules
  induction rules with
  | nil => intro c kw h; simp [scanRules] at h
  | cons r rest ih =>
      intro c kw h
      obtain ⟨cr, kws⟩ := r
      unfold scanRules at h
      cases hs : searchAlt (sortByLenDesc kws) normalized with
      | some pr =>
          obtain ⟨p, kw2⟩ := pr
          rw [hs] at h
          simp only [Option.some.injEq, Prod.mk.injEq] at h
          obtain ⟨rfl, rfl⟩ := h
          exact ⟨kws, p, List.mem_cons_self _ _, hs⟩
      | none =>
          rw [hs] at h
          obtain ⟨kws2, p, hmem, hsearch⟩ := ih c kw h
          exact ⟨kws2, p, List.mem_cons_of_mem _ hmem, hsearch⟩

/--
C3 (corrected): within the first rule-set category whose pattern matches,
the recorded keyword is the one matching at the leftmost position of the
upper-cased description (no keyword of that category matches at any earlier
position); only among keywords matching at that same position does the
longest one win.  The recorded text is the matched span, i.e. the winning
keyword upper-cased.  (The claim's "longer keyword wins regardless of
position" is refuted by `C3_counterexample`.)
-/
theorem C3_keyword_leftmost_longest :
    ∀ (text c kwTxt : String),
      matchCategoryAndKeyword text = some (c, kwTxt) →
      ∃ kws k p, (c, kws) ∈ CATEGORY_RULES ∧ k ∈ kws ∧
        matchesAt (upChars text.toList) p k = true ∧
        kwTxt = (⟨((upChars text.toList).drop p).take k.toList.length⟩ : String) ∧
        (∀ k2 ∈ kws, ∀ j, j < p → matchesAt (upChars text.toList) j k2 = false) ∧
        (∀ k2 ∈ kws, matchesAt (upChars text.toList) p k2 = true →
          k2.toList.length ≤ k.toList.length) := by
  intro text c kw h
  unfold matchCategoryAndKeyword at h
  split at h
  · simp at h
  · obtain ⟨kws, p, hmem, hsearch⟩ := scanRules_spec CATEGORY_RULES c kw h
    unfold searchAlt at hsearch
    obtain ⟨-, ⟨k, hfind, hkw⟩, hnone⟩ :=
      searchAltFrom_spec ((upChars text.toList).length + 1) 0 p kw hsearch
    have hkmem : k ∈ kws := mem_sortByLenDesc.mp (List.mem_of_find?_eq_some hfind)
    have hkmatch : matchesAt (upChars text.toList) p k = true := List.find?_some hfind
    refine ⟨kws, k, p, hmem, hkmem, hkmatch, hkw, ?_, ?_⟩
    · intro k2 hk2 j hj
      have hn := hnone j (Nat.zero_le j) hj
      unfold firstMatchAt at hn
      rw [List.find?_eq_none] at hn
      exact Bool.eq_false_iff.mpr (hn k2 (mem_sortByLenDesc.mpr hk2))
    · intro k2 hk2 hm
      exact find?_first_max (pairwise_sortByLenDesc kws) hfind
        k2 (mem_sortByLenDesc.mpr hk2) hm

/-- Witness for `C3_keyword_leftmost_longest` on `"STARBUCKS COFFEE"`
(resolved as `Coffee` via the keyword `STARBUCKS` at position 0). -/
theorem C3_keyword_leftmost_longest_witness :
    ∃ kws k p, ("Coffee", kws) ∈ CATEGORY_RULES ∧ k ∈ kws ∧
      matchesAt (upChars "STARBUCKS COFFEE".toList) p k = true ∧
      "STARBUCKS" =
        (⟨((upChars "STARBUCKS COFFEE".toList).drop p).take k.toList.length⟩ : String) ∧
      (∀ k2 ∈ kws, ∀ j, j < p →
          matchesAt (upChars "STARBUCKS COFFEE".toList) j k2 = false) ∧
      (∀ k2 ∈ kws, matchesAt (upChars "STARBUCKS COFFEE".toList) p k2 = true →
          k2.toList.length ≤ k.toList.length) :=
  C3_keyword_leftmost_longest "STARBUCKS COFFEE" "Coffee" "STARBUCKS" (by decide)

/--
C3 counterexample: `"MY FOODS UBER EATS"` contains two distinct `Dining`
keywords — `FOODS` (5 characters, at position 3) and `UBER EATS`
(9 characters, at position 9) — `Dining` is the first category to match,
yet the Categorizer records the shorter `FOODS` because it matches further
left, refuting "the longer of the two keywords … regardless of where in the
description each keyword occurs".
-/
theorem C3_counterexample :
    matchCategoryAndKeyword "MY FOODS UBER EATS" = some ("Dining", "FOODS") ∧
    ("Dining", ["MCDONALD", "CHIPOTLE", "SUBWAY", "GRUBHUB", "UBER EATS",
                "DOORDASH", "HMONG", "FOODS"]) ∈ CATEGORY_RULES ∧
    matchesAt (upChars "MY FOODS UBER EATS".toList) 9 "UBER EATS" = true ∧
    "FOODS".toList.length < "UBER EATS".toList.length := by decide

end Expenses
